import Mathlib

/-!
Verification of the `json-schema-gen` generator (`generator.go`): a shallow
embedding of its data model and pipeline — tag parsing (`parseFieldTags`),
struct extraction (`parseStruct`), type inference (`getFieldType`), the
`ast.Inspect`-based type lookup in `main`, the `text/template` rendering of
the `properties` object, and the file-writing step (`generateSchemaFile`).

Go strings are modelled as Lean `String`s; `strings.Split` with a non-empty
separator coincides with `String.splitOn`; Go maps built by repeated
assignment are modelled as association lists with last-write-wins lookup;
machine integers are `Int` with the explicit 64-bit range check that
`strconv.Atoi` performs; file-system and I/O effects are explicit state
(a name-indexed store and an ordered list of printed lines).
-/

set_option autoImplicit false

namespace SchemaGen

/-- `SchemaField` of generator.go: one field of the generated schema.
`MinLength` is `*int` in Go (nil pointer = absent), hence `Option Int`;
the Go field `Type` is spelt `Typ` because `Type` is reserved in Lean. -/
structure SchemaField where
  Name : String
  Typ : String
  Required : Bool
  MinLength : Option Int
  Format : String
  Description : String
  deriving DecidableEq, Repr

/-- `SchemaType` of generator.go: the complete schema structure. -/
structure SchemaType where
  TypeName : String
  Fields : List SchemaField
  deriving DecidableEq, Repr

/-- A Go type expression (`ast.Expr`) as far as `getFieldType` can observe it:
a bare identifier, or any other expression shape (array/slice, map, pointer,
struct literal, selector, ...), which `getFieldType` never inspects further. -/
inductive GoExpr where
  | ident (name : String)
  | arrayType (elem : GoExpr)
  | mapType (key val : GoExpr)
  | starType (elem : GoExpr)
  | structLit
  | selector (pkg name : String)
  deriving DecidableEq, Repr

/-- One entry of `ast.StructType.Fields.List`: the declared type expression and
the raw tag literal (`field.Tag.Value`, backticks included), `none` when the
field has no tag (`field.Tag == nil`).  The generator never reads field names. -/
structure GoField where
  ty : GoExpr
  tag : Option String
  deriving DecidableEq, Repr

/-- A Go type definition as the locator's type switch sees it:
`*ast.StructType` (with its field list) or any non-struct underlying type. -/
inductive TypeDef where
  | structTy (fields : List GoField)
  | otherTy
  deriving DecidableEq, Repr

/-- An `ast.TypeSpec`: declared name and underlying type definition. -/
structure TypeDecl where
  name : String
  ty : TypeDef
  deriving DecidableEq, Repr

/-- `strings.Trim(s, cutset)`: remove all leading and trailing characters
that occur in `cutset`. -/
def goTrim (s : String) (cutset : List Char) : String :=
  let l := s.toList.dropWhile (fun c => c ∈ cutset)
  String.mk ((l.reverse.dropWhile (fun c => c ∈ cutset)).reverse)

/-- Whether `needle` occurs as a contiguous run inside `hay` (at any suffix). -/
def containsSub (needle : List Char) : List Char → Bool
  | [] => needle.isEmpty
  | c :: rest => needle.isPrefixOf (c :: rest) || containsSub needle rest

/-- `strings.Contains(s, sub)`: substring containment. -/
def goContains (s sub : String) : Bool :=
  containsSub sub.toList s.toList

/-- Left-to-right scan for the first occurrence of the (non-empty) separator
`sep`: everything strictly after that occurrence, `[]` when `sep` is absent. -/
def dropThroughFirst (sep : List Char) : List Char → List Char
  | [] => []
  | c :: rest =>
    if sep.isPrefixOf (c :: rest) then (c :: rest).drop sep.length
    else dropThroughFirst sep rest

/-- Left-to-right scan for the first occurrence of the (non-empty) separator
`sep`: everything strictly before that occurrence, the whole list when `sep`
is absent. -/
def uptoFirst (sep : List Char) : List Char → List Char
  | [] => []
  | c :: rest =>
    if sep.isPrefixOf (c :: rest) then []
    else c :: uptoFirst sep rest

/-- `strings.Split` on a non-empty separator, scanning left to right over
non-overlapping occurrences; `fuel` (always instantiated to more than the
input length) makes the recursion structural. -/
def splitAux (sep : List Char) : Nat → List Char → List Char → List (List Char)
  | _, [], cur => [cur]
  | 0, l, cur => [cur ++ l]
  | fuel + 1, c :: rest, cur =>
    if sep.isPrefixOf (c :: rest) then
      cur :: splitAux sep fuel ((c :: rest).drop sep.length) []
    else
      splitAux sep fuel rest (cur.concat c)

/-- `strings.Split(s, sep)` for a non-empty separator `sep` (the only way the
generator calls it): the list of segments between occurrences of `sep`. -/
def goSplit (s sep : String) : List String :=
  (splitAux sep.toList (s.toList.length + 1) s.toList []).map String.mk

/-- `strings.SplitN(s, sep, 2)[1]`: everything after the first occurrence of
`sep`.  Meaningful only when `sep` occurs in `s` (the generator guards every
use with `strings.Contains`); otherwise returns `""`. -/
def goAfterFirst (s sep : String) : String :=
  String.mk (dropThroughFirst sep.toList s.toList)

/-- `strings.Split(s, ",")[0]` (equally `SplitN(s, ",", 2)[0]`): the prefix of
`s` up to the first comma. -/
def goUptoComma (s : String) : String :=
  String.mk (uptoFirst [','] s.toList)

/-- `strconv.Atoi`: optional sign, one or more decimal digits, value within
the 64-bit signed range; `none` models a non-nil error (syntax or range). -/
def goAtoi (s : String) : Option Int :=
  let signDigits : Int × List Char :=
    match s.toList with
    | '+' :: rest => (1, rest)
    | '-' :: rest => (-1, rest)
    | cs => (1, cs)
  let sign := signDigits.1
  let digits := signDigits.2
  if digits.isEmpty then none
  else if digits.all Char.isDigit then
    let n : Nat := digits.foldl (fun acc c => acc * 10 + (c.toNat - 48)) 0
    let v : Int := sign * (n : Int)
    if -(2 ^ 63) ≤ v ∧ v < 2 ^ 63 then some v else none
  else none

/-- `parseFieldTags` of generator.go: trim the backticks, split on spaces,
keep tokens that split on `:` into exactly two parts, strip the quotes from
the value.  The Go map is kept as the ordered list of assignments. -/
def parseFieldTags (tag : String) : List (String × String) :=
  let t := goTrim tag ['`']
  (goSplit t " ").foldl
    (fun acc tok =>
      match goSplit tok ":" with
      | [k, v] => acc ++ [(k, goTrim v ['"'])]
      | _ => acc)
    []

/-- Go map read `tags[k]`: the last assignment wins; a missing key yields the
zero value `""`. -/
def goMapGet (tags : List (String × String)) (k : String) : String :=
  (tags.foldl (fun acc p => if p.1 = k then some p.2 else acc) none).getD ""

/-- `getFieldType` of generator.go: the type switch on `*ast.Ident` names,
with `"string"` as the fall-through result for every other expression. -/
def getFieldType (e : GoExpr) : String :=
  match e with
  | .ident name =>
    if name = "string" then "string"
    else if name = "int" ∨ name = "int32" ∨ name = "int64" then "integer"
    else if name = "float32" ∨ name = "float64" then "number"
    else if name = "bool" then "boolean"
    else "string"
  | _ => "string"

/-- The text handed to `strconv.Atoi` for the minimum-length constraint:
`strings.SplitN(strings.SplitN(schemaVal, "minLength=", 2)[1], ",", 2)[0]`,
everything after the first `minLength=` up to the next comma. -/
def minLengthText (schemaVal : String) : String :=
  goUptoComma (goAfterFirst schemaVal "minLength=")

/-- The format string: `strings.Split(schemaVal, "format=")[1]` (the segment
between the first and second occurrence of `format=`), then everything up to
the first comma. -/
def formatText (schemaVal : String) : String :=
  goUptoComma ((goSplit schemaVal "format=").getD 1 "")

/-- The body of the field loop in `parseStruct`: `none` when the field is
skipped (`field.Tag == nil`, or `tags["json"] == "-"`), otherwise the
`SchemaField` appended to `schema.Fields`. -/
def processField (f : GoField) : Option SchemaField :=
  match f.tag with
  | none => none
  | some raw =>
    let tags := parseFieldTags raw
    if goMapGet tags "json" = "-" then none
    else
      let schemaVal := goMapGet tags "schema"
      some
        { Name := goMapGet tags "json"
          Typ := getFieldType f.ty
          Required := goContains schemaVal "required"
          MinLength :=
            if goContains schemaVal "minLength=" then
              goAtoi (minLengthText schemaVal)
            else none
          Format :=
            if goContains schemaVal "format=" then
              formatText schemaVal
            else ""
          Description := "" }

/-- `parseStruct` of generator.go: fold the field loop over the struct's
field list in declaration order. -/
def parseStruct (typeName : String) (fields : List GoField) : SchemaType :=
  { TypeName := typeName, Fields := fields.filterMap processField }

/-- A JSON value as the template can emit it inside a property object. -/
inductive JsonVal where
  | jstr (s : String)
  | jint (n : Int)
  | jbool (b : Bool)
  deriving DecidableEq, Repr

/-- The members the template emits for one field's property object:
`type` always; `required` iff the Bool is true; `minLength` iff the `*int`
is non-nil (template truth of a pointer), printing the pointed value;
`format` and `description` iff the string is non-empty (template truth of a
string). -/
def fieldMembers (f : SchemaField) : List (String × JsonVal) :=
  [("type", JsonVal.jstr f.Typ)]
    ++ (if f.Required then [("required", JsonVal.jbool true)] else [])
    ++ (match f.MinLength with
        | some n => [("minLength", JsonVal.jint n)]
        | none => [])
    ++ (if f.Format ≠ "" then [("format", JsonVal.jstr f.Format)] else [])
    ++ (if f.Description ≠ "" then [("description", JsonVal.jstr f.Description)] else [])

/-- The `properties` object the template renders: one member per
`SchemaField`, keyed by `Name`, in `Fields` order. -/
def renderProperties (s : SchemaType) : List (String × List (String × JsonVal)) :=
  s.Fields.map (fun f => (f.Name, fieldMembers f))

/-- Whether a `TypeDef` is a struct type (the `typeSpec.Type.(*ast.StructType)`
type assertion succeeding). -/
def isStructDef : TypeDef → Bool
  | .structTy _ => true
  | .otherTy => false

/-- One visit of the `ast.Inspect` closure in `main` at a `TypeSpec`:
a name mismatch or a failed struct assertion leaves `schema` unchanged
(the closure returns `true` and traversal continues); a matching struct
declaration overwrites `schema` with `parseStruct`'s result. -/
def findStep (typeName : String) (schema : Option SchemaType) (d : TypeDecl) :
    Option SchemaType :=
  if d.name ≠ typeName then schema
  else
    match d.ty with
    | .structTy fields => some (parseStruct d.name fields)
    | .otherTy => schema

/-- The `ast.Inspect` pass of `main` over the file's type declarations in
source order: the `schema` variable starts `nil` and each visited `TypeSpec`
is processed by `findStep`.  (Returning `false` from the closure only skips
the matched node's own children; it does not stop the traversal, so later
declarations are still visited.) -/
def goFindSchema (decls : List TypeDecl) (typeName : String) : Option SchemaType :=
  decls.foldl (findStep typeName) none

/-- What `generateSchemaFile` writes: the document is modelled by the parts
the template interpolates (title and the rendered properties object), plus
the permission bits passed to `os.WriteFile`. -/
structure FileData where
  title : String
  properties : List (String × List (String × JsonVal))
  perm : Nat
  deriving DecidableEq, Repr

/-- `os.WriteFile` on a name-indexed store: creates or truncates, so the
previous contents at `name` (if any) are replaced unconditionally. -/
def goWriteFile (fs : String → Option FileData) (name : String) (data : FileData) :
    String → Option FileData :=
  fun n => if n = name then some data else fs n

/-- `strings.ToLower` restricted to ASCII letters (Go type names in source
are identifiers; the generator's inputs are ASCII). -/
def goToLower (s : String) : String :=
  String.mk (s.toList.map Char.toLower)

/-- The line printed by
`fmt.Println("Schema file generated successfully\n", "FileName: ", outputFile)`:
`Println` separates operands with single spaces and appends a newline. -/
def confirmLine (outputFile : String) : String :=
  "Schema file generated successfully\n FileName:  " ++ outputFile ++ "\n"

/-- The outcome of `generateSchemaFile`: the store after the write, the lines
printed (in order), and the error returned to `main`. -/
structure GenResult where
  fs : String → Option FileData
  printed : List String
  err : Option String

/-- `generateSchemaFile` of generator.go: compute the output name, render the
template (which cannot fail on plain `SchemaType` data), print the
confirmation, then attempt `os.WriteFile` with permission `0644`.  Whether
the write fails is environment nondeterminism, passed in as `writeErr`
(`some msg` = the write fails with that error message). -/
def generateSchemaFile (fs : String → Option FileData) (writeErr : Option String)
    (schema : SchemaType) : GenResult :=
  let outputFile := goToLower schema.TypeName ++ ".schema.json"
  match writeErr with
  | some e => { fs := fs, printed := [confirmLine outputFile], err := some e }
  | none =>
    { fs := goWriteFile fs outputFile
        { title := schema.TypeName, properties := renderProperties schema, perm := 0o644 }
      printed := [confirmLine outputFile]
      err := none }

/-- The observable outcome of a run of `main`: final store, lines printed in
order, and the process exit code. -/
structure MainResult where
  fs : String → Option FileData
  printed : List String
  exitCode : Nat

/-- `main` of generator.go from the point the source file has been parsed
into its list of type declarations (lines 84–117): locate the type, report
`Type <name> not found in <file>` and exit 1 when the lookup fails, otherwise
run `generateSchemaFile` and report its error (exit 1) or succeed (exit 0).
Flag validation and parse errors (lines 60–81) happen strictly earlier and
touch neither the store nor these messages. -/
def goMainRun (decls : List TypeDecl) (typeName inputFile : String)
    (fs : String → Option FileData) (writeErr : Option String) : MainResult :=
  match goFindSchema decls typeName with
  | none =>
    { fs := fs
      printed := ["Type " ++ typeName ++ " not found in " ++ inputFile ++ "\n"]
      exitCode := 1 }
  | some schema =>
    let g := generateSchemaFile fs writeErr schema
    match g.err with
    | some e =>
      { fs := g.fs
        printed := g.printed ++ ["Error generating schema: " ++ e ++ "\n"]
        exitCode := 1 }
    | none => { fs := g.fs, printed := g.printed, exitCode := 0 }

/-- Whether the field-loop of `parseStruct` produces an entry for the field:
it has a tag and the tag's `json` value is not the skip marker `-`. -/
def isTaggable (f : GoField) : Bool :=
  match f.tag with
  | none => false
  | some raw => if goMapGet (parseFieldTags raw) "json" = "-" then false else true

/-- The property name a taggable field gets: its `json` tag value (the Go
map's zero value `""` when the tag has no `json` key). -/
def propName (f : GoField) : String :=
  match f.tag with
  | none => ""
  | some raw => goMapGet (parseFieldTags raw) "json"

/-- Key membership in a rendered property object. -/
def hasMember (members : List (String × JsonVal)) (k : String) : Bool :=
  members.any (fun p => p.1 == k)

/-- The claim's test predicate, in the spec's words: the text parses as a
non-negative integer (via `strconv.Atoi`). -/
def parsesAsNonNegInt (s : String) : Bool :=
  match goAtoi s with
  | some v => decide (0 ≤ v)
  | none => false

/-- The spec's example `User` struct: `ID int`, `Name string`, `Email string`,
`IsActive bool`, with the tags of the §8 scenario. -/
def specUserFields : List GoField :=
  [⟨.ident "int", some "`json:\"id\" schema:\"required,min=1\"`"⟩,
   ⟨.ident "string", some "`json:\"name\" schema:\"required,minLength=2\"`"⟩,
   ⟨.ident "string", some "`json:\"email\" schema:\"required,format=email\"`"⟩,
   ⟨.ident "bool", some "`json:\"isActive\"`"⟩]

/-- A raw tag whose schema value carries a negative minimum length. -/
def mlenMinus3Raw : String := "`json:\"name\" schema:\"minLength=-3\"`"

/-- The schema tag value of `mlenMinus3Raw` as the field loop reads it. -/
def mlenMinus3Schema : String := goMapGet (parseFieldTags mlenMinus3Raw) "schema"

/-- A string field tagged `json:"name" schema:"minLength=-3"`. -/
def minusThreeField : GoField := ⟨.ident "string", some mlenMinus3Raw⟩

/-- A raw tag with a well-formed minimum length. -/
def mlen3Raw : String := "`json:\"name\" schema:\"minLength=3\"`"

/-- A string field tagged `json:"name" schema:"minLength=3"`. -/
def mlen3Field : GoField := ⟨.ident "string", some mlen3Raw⟩

/-- A field tagged `json:"-"` together with rich other tag content. -/
def dashField : GoField :=
  ⟨.ident "string", some "`json:\"-\" schema:\"required,minLength=3,format=email\"`"⟩

/-- An ordinary tagged field, used as surrounding context in witnesses. -/
def plainField : GoField := ⟨.ident "int", some "`json:\"id\"`"⟩

/-- A field whose tag has a `schema` key but no `json` key at all. -/
def bareSchemaField : GoField := ⟨.ident "string", some "`schema:\"required\"`"⟩

/-- A struct declaration of `User` whose only property key is `a`. -/
def dupDeclA : TypeDecl := ⟨"User", .structTy [⟨.ident "int", some "`json:\"a\"`"⟩]⟩

/-- A second struct declaration of `User` whose only property key is `b`. -/
def dupDeclB : TypeDecl := ⟨"User", .structTy [⟨.ident "int", some "`json:\"b\"`"⟩]⟩

end SchemaGen

namespace SchemaGen

theorem goMapGet_of_no_key (tags : List (String × String)) (k : String)
    (h : ∀ p ∈ tags, p.1 ≠ k) : goMapGet tags k = "" := by
  have aux : ∀ (l : List (String × String)) (acc : Option String),
      (∀ p ∈ l, p.1 ≠ k) → l.foldl (fun acc p => if p.1 = k then some p.2 else acc) acc = acc := by
    intro l
    induction l with
    | nil => intro acc _; rfl
    | cons p rest ih =>
      intro acc hl
      have hp : p.1 ≠ k := hl p (by simp)
      have hrest : ∀ q ∈ rest, q.1 ≠ k := fun q hq => hl q (by simp [hq])
      simp only [List.foldl_cons, if_neg hp]
      exact ih acc hrest
  unfold goMapGet
  rw [aux tags none h]
  rfl

theorem processField_map_name (f : GoField) :
    (processField f).map SchemaField.Name =
      if isTaggable f = true then some (propName f) else none := by
  cases htag : f.tag with
  | none => simp [processField, isTaggable, htag]
  | some raw =>
    by_cases hj : goMapGet (parseFieldTags raw) "json" = "-" <;>
      simp [processField, isTaggable, propName, htag, hj]

theorem processField_none_iff (f : GoField) :
    processField f = none ↔ isTaggable f = false := by
  have h := processField_map_name f
  constructor
  · intro hpf
    rw [hpf] at h
    cases ht : isTaggable f
    · rfl
    · rw [ht, if_pos rfl] at h
      exact absurd h (by simp)
  · intro ht
    rw [ht] at h
    simp only [Bool.false_eq_true, if_false] at h
    cases hpf : processField f with
    | none => rfl
    | some sf =>
      rw [hpf] at h
      exact absurd h (by simp)

theorem renderProps_keys (n : String) (fields : List GoField) :
    (renderProperties (parseStruct n fields)).map Prod.fst =
      (fields.filter isTaggable).map propName := by
  induction fields with
  | nil => rfl
  | cons f rest ih =>
    have hstep : (renderProperties (parseStruct n (f :: rest))).map Prod.fst =
        ((f :: rest).filterMap processField).map SchemaField.Name := by
      simp [renderProperties, parseStruct]
    have hrest : (renderProperties (parseStruct n rest)).map Prod.fst =
        (rest.filterMap processField).map SchemaField.Name := by
      simp [renderProperties, parseStruct]
    rw [hstep, List.filterMap_cons, List.filter_cons]
    have hname := processField_map_name f
    cases hpf : processField f with
    | none =>
      have ht : isTaggable f = false := (processField_none_iff f).mp hpf
      rw [ht]
      simp only [Bool.false_eq_true, if_false]
      rw [← hrest, ih]
    | some sf =>
      have ht : isTaggable f = true := by
        by_contra hc
        have : isTaggable f = false := by
          cases hcc : isTaggable f
          · rfl
          · exact absurd hcc hc
        exact absurd hpf (by simp [(processField_none_iff f).mpr this])
      rw [ht, if_pos rfl]
      rw [hpf, ht] at hname
      simp only [Option.map_some, if_pos] at hname
      have hsf : sf.Name = propName f := by
        simpa using hname
      simp only [List.map_cons, hsf]
      rw [← hrest, ih]

/-- C1: on the spec's example `User` struct, the generator produces a
properties object with exactly the four keys `id`, `name`, `email`,
`isActive`; `id` gets type `integer` and `required` but no `minLength`
(`min=1` does not contain `minLength=`); `email` gets type `string`,
`required` and format `email`; `isActive` gets type `boolean` and nothing
else. -/
theorem claim_C1_spec_user_scenario :
    renderProperties (parseStruct "User" specUserFields) =
      [("id", [("type", JsonVal.jstr "integer"), ("required", JsonVal.jbool true)]),
       ("name", [("type", JsonVal.jstr "string"), ("required", JsonVal.jbool true),
                 ("minLength", JsonVal.jint 2)]),
       ("email", [("type", JsonVal.jstr "string"), ("required", JsonVal.jbool true),
                  ("format", JsonVal.jstr "email")]),
       ("isActive", [("type", JsonVal.jstr "boolean")])] := by
  decide

/-- C4: a field with no tag at all, or whose `json` tag value is exactly the
skip marker `-`, is dropped by the field loop and contributes no entry to the
rendered properties object, wherever it occurs in the struct and whatever the
rest of its tag says. -/
theorem claim_C4_skip_marker_and_tagless
    (n : String) (pre post : List GoField) (f : GoField)
    (h : f.tag = none ∨ ∀ raw, f.tag = some raw → goMapGet (parseFieldTags raw) "json" = "-") :
    processField f = none ∧
    renderProperties (parseStruct n (pre ++ f :: post)) =
      renderProperties (parseStruct n (pre ++ post)) := by
  have hnone : processField f = none := by
    cases htag : f.tag with
    | none => simp [processField, htag]
    | some raw =>
      rcases h with h | h
      · rw [htag] at h; exact absurd h (by simp)
      · have := h raw htag
        simp [processField, htag, this]
  refine ⟨hnone, ?_⟩
  simp [renderProperties, parseStruct, List.filterMap_append, List.filterMap_cons, hnone]

/-- C4 witness: a `json:"-"` field carrying required/minLength/format options
between two ordinary fields leaves the output exactly as if it were absent. -/
theorem claim_C4_skip_marker_and_tagless_witness :
    processField dashField = none ∧
    renderProperties (parseStruct "User" ([plainField] ++ dashField :: [bareSchemaField])) =
      renderProperties (parseStruct "User" ([plainField] ++ [bareSchemaField])) :=
  claim_C4_skip_marker_and_tagless "User" [plainField] [bareSchemaField] dashField
    (Or.inr (fun raw hr => by
      injection hr with h
      rw [← h]
      decide))

/-- C5: for every struct, the rendered properties object has exactly one
member per taggable field (tag present, `json` value not `-`), and its keys
are those fields' `json` names in declaration order. -/
theorem claim_C5_properties_count_and_order (n : String) (fields : List GoField) :
    (renderProperties (parseStruct n fields)).length = (fields.filter isTaggable).length ∧
    (renderProperties (parseStruct n fields)).map Prod.fst =
      (fields.filter isTaggable).map propName := by
  refine ⟨?_, renderProps_keys n fields⟩
  have h := congrArg List.length (renderProps_keys n fields)
  simpa using h

/-- C6: the inferred schema type is `string` for `string`, `integer` for
`int`/`int32`/`int64`, `number` for `float32`/`float64`, `boolean` for
`bool`, and `string` for every other declared type expression. -/
theorem claim_C6_field_type_inference :
    getFieldType (.ident "string") = "string" ∧
    getFieldType (.ident "int") = "integer" ∧
    getFieldType (.ident "int32") = "integer" ∧
    getFieldType (.ident "int64") = "integer" ∧
    getFieldType (.ident "float32") = "number" ∧
    getFieldType (.ident "float64") = "number" ∧
    getFieldType (.ident "bool") = "boolean" ∧
    (∀ e : GoExpr,
      (∀ nm, e = GoExpr.ident nm →
        nm ∉ ["string", "int", "int32", "int64", "float32", "float64", "bool"]) →
      getFieldType e = "string") := by
  refine ⟨rfl, rfl, rfl, rfl, rfl, rfl, rfl, ?_⟩
  intro e he
  cases e with
  | ident nm =>
    have h := he nm rfl
    simp only [List.mem_cons, List.mem_singleton] at h
    push_neg at h
    obtain ⟨h1, h2, h3, h4, h5, h6, h7, -⟩ := h
    simp [getFieldType, h1, h2, h3, h4, h5, h6, h7]
  | arrayType elem => rfl
  | mapType k v => rfl
  | starType elem => rfl
  | structLit => rfl
  | selector p nm => rfl

/-- C6 witness: the recognized identifiers, plus a slice, a map, a pointer, a
struct literal and an unrecognized identifier all defaulting to `string`. -/
theorem claim_C6_field_type_inference_witness :
    getFieldType (.ident "int") = "integer" ∧
    getFieldType (.arrayType (.ident "string")) = "string" ∧
    getFieldType (.mapType (.ident "string") (.ident "int")) = "string" ∧
    getFieldType (.starType (.ident "bool")) = "string" ∧
    getFieldType .structLit = "string" ∧
    getFieldType (.ident "uint8") = "string" :=
  ⟨claim_C6_field_type_inference.2.1,
   claim_C6_field_type_inference.2.2.2.2.2.2.2 _ (fun _ h => GoExpr.noConfusion h),
   claim_C6_field_type_inference.2.2.2.2.2.2.2 _ (fun _ h => GoExpr.noConfusion h),
   claim_C6_field_type_inference.2.2.2.2.2.2.2 _ (fun _ h => GoExpr.noConfusion h),
   claim_C6_field_type_inference.2.2.2.2.2.2.2 _ (fun _ h => GoExpr.noConfusion h),
   claim_C6_field_type_inference.2.2.2.2.2.2.2 _ (fun nm h => by
     injection h with h2
     rw [← h2]
     decide)⟩

/-- C9: a field whose tag string has no `json` key still produces a schema
entry, named by the Go map's zero value `""`, so the rendered properties
object acquires a member whose key is the empty string. -/
theorem claim_C9_missing_json_key_empty_name
    (n : String) (pre post : List GoField) (f : GoField) (raw : String)
    (htag : f.tag = some raw)
    (hnokey : ∀ p ∈ parseFieldTags raw, p.1 ≠ "json") :
    (processField f).map SchemaField.Name = some "" ∧
    "" ∈ (renderProperties (parseStruct n (pre ++ f :: post))).map Prod.fst := by
  have hget : goMapGet (parseFieldTags raw) "json" = "" :=
    goMapGet_of_no_key _ _ hnokey
  have hpf : (processField f).map SchemaField.Name = some "" := by
    simp [processField, htag, hget]
  refine ⟨hpf, ?_⟩
  cases hpff : processField f with
  | none => rw [hpff] at hpf; exact absurd hpf (by simp)
  | some sf =>
    have hname : sf.Name = "" := by rw [hpff] at hpf; simpa using hpf
    simp only [renderProperties, parseStruct, List.filterMap_append,
      List.filterMap_cons, hpff, List.map_append, List.map_cons]
    refine List.mem_append.mpr (Or.inr ?_)
    simp [hname]

/-- C9 witness: a field tagged only `schema:"required"` yields the entry
keyed `""`. -/
theorem claim_C9_missing_json_key_empty_name_witness :
    (processField bareSchemaField).map SchemaField.Name = some "" ∧
    "" ∈ (renderProperties (parseStruct "T" ([plainField] ++ bareSchemaField :: []))).map Prod.fst :=
  claim_C9_missing_json_key_empty_name "T" [plainField] [] bareSchemaField _ rfl
    (by decide)

theorem foldl_findStep_no_struct_match (t : String) (l : List TypeDecl)
    (acc : Option SchemaType)
    (h : ∀ d ∈ l, d.name = t → isStructDef d.ty = false) :
    l.foldl (findStep t) acc = acc := by
  induction l generalizing acc with
  | nil => rfl
  | cons d rest ih =>
    have hd := h d (by simp)
    have hrest : ∀ d2 ∈ rest, d2.name = t → isStructDef d2.ty = false :=
      fun d2 hm => h d2 (by simp [hm])
    have hstep : findStep t acc d = acc := by
      unfold findStep
      by_cases hn : d.name = t
      · have hns := hd hn
        cases hty : d.ty with
        | structTy g =>
          rw [hty] at hns
          exact absurd hns (by simp [isStructDef])
        | otherTy => simp [hn, hty]
      · simp [hn]
    rw [List.foldl_cons, hstep]
    exact ih acc hrest

/-- C2 counterexample: with `User` (abnormally) declared twice as a struct —
first with property key `a`, then with key `b` — the locator's result is
built from the fields of the SECOND declaration (key `b`), although the first
declaration also matches and is a struct: the traversal is not stopped by a
match, so the last matching struct wins, refuting "the first matching
structure declaration is the one whose fields are used". -/
theorem claim_C2_counterexample :
    goFindSchema [dupDeclA, dupDeclB] "User" =
      some (parseStruct "User" [⟨GoExpr.ident "int", some "`json:\"b\"`"⟩]) ∧
    (goFindSchema [dupDeclA, dupDeclB] "User").map
        (fun s => (renderProperties s).map Prod.fst) = some [["b"].headD ""] ∧
    dupDeclA.name = "User" ∧ isStructDef dupDeclA.ty = true ∧
    parseStruct "User" [⟨GoExpr.ident "int", some "`json:\"b\"`"⟩] ≠
      parseStruct "User" [⟨GoExpr.ident "int", some "`json:\"a\"`"⟩] := by
  decide

/-- C2 (amended): the locator visits type declarations in source order and
keeps overwriting its result, so when the target name is declared more than
once as a structure type it is the LAST matching structure declaration whose
fields are used; a declaration whose name matches but whose underlying type
is not a structure is skipped and traversal continues. -/
theorem claim_C2_last_struct_match_wins
    (pre post : List TypeDecl) (d : TypeDecl) (t : String) (flds : List GoField)
    (hname : d.name = t) (hty : d.ty = TypeDef.structTy flds)
    (hpost : ∀ d2 ∈ post, d2.name = t → isStructDef d2.ty = false) :
    goFindSchema (pre ++ d :: post) t = some (parseStruct t flds) := by
  unfold goFindSchema
  rw [List.foldl_append, List.foldl_cons]
  have hstep : findStep t (pre.foldl (findStep t) none) d = some (parseStruct t flds) := by
    unfold findStep
    rw [if_neg (by simp [hname]), hty, hname]
  rw [hstep]
  exact foldl_findStep_no_struct_match t post _ hpost

/-- C2 witness: `User` declared as a struct between a differently-named
declaration and a later non-struct `User` declaration — the non-struct match
is skipped and the struct declaration's fields are used. -/
theorem claim_C2_last_struct_match_wins_witness :
    goFindSchema [⟨"Other", TypeDef.otherTy⟩, dupDeclA, ⟨"User", TypeDef.otherTy⟩] "User" =
      some (parseStruct "User" [⟨GoExpr.ident "int", some "`json:\"a\"`"⟩]) :=
  claim_C2_last_struct_match_wins [⟨"Other", TypeDef.otherTy⟩] [⟨"User", TypeDef.otherTy⟩]
    dupDeclA "User" [⟨GoExpr.ident "int", some "`json:\"a\"`"⟩] rfl rfl (by decide)

/-- C7: when no declaration of the requested name is a structure type (the
name being absent, or present only as non-structure types), `main` prints
`Type <name> not found in <file>`, exits with status 1, and leaves the file
store untouched — no output file is written. -/
theorem claim_C7_type_not_found
    (decls : List TypeDecl) (t file : String) (fs : String → Option FileData)
    (werr : Option String)
    (h : ∀ d ∈ decls, d.name = t → isStructDef d.ty = false) :
    goMainRun decls t file fs werr =
      { fs := fs
        printed := ["Type " ++ t ++ " not found in " ++ file ++ "\n"]
        exitCode := 1 } := by
  have hfind : goFindSchema decls t = none :=
    foldl_findStep_no_struct_match t decls none h
  unfold goMainRun
  rw [hfind]

/-- C7 witness: `User` present only as a non-struct declaration next to a
struct of another name — the run reports not-found, exits 1, writes nothing. -/
theorem claim_C7_type_not_found_witness :
    goMainRun [⟨"User", TypeDef.otherTy⟩, ⟨"Other", TypeDef.structTy []⟩] "User" "user.go"
        (fun _ => none) none =
      { fs := fun _ => none
        printed := ["Type User not found in user.go\n"]
        exitCode := 1 } :=
  claim_C7_type_not_found _ _ _ _ _ (by decide)

theorem hasMember_minLength (sf : SchemaField) :
    hasMember (fieldMembers sf) "minLength" = sf.MinLength.isSome := by
  rcases sf with ⟨nm, ty, req, ml, fmt, desc⟩
  simp only [hasMember, fieldMembers, List.any_append]
  cases ml <;> cases req <;>
    by_cases h1 : fmt = "" <;> by_cases h2 : desc = "" <;>
      simp [h1, h2]

/-- C3 counterexample: for a field tagged `schema:"minLength=-3"`, the text
after `minLength=` up to the next comma is `-3`, which does NOT parse as a
non-negative integer — yet the rendered property object DOES contain a
`minLength` member (with value -3): `strconv.Atoi` accepts a sign and the
template emits any non-nil pointer, refuting the claimed equivalence. -/
theorem claim_C3_counterexample :
    (processField minusThreeField).map (fun sf => hasMember (fieldMembers sf) "minLength") =
      some true ∧
    goContains mlenMinus3Schema "minLength=" = true ∧
    minLengthText mlenMinus3Schema = "-3" ∧
    parsesAsNonNegInt (minLengthText mlenMinus3Schema) = false ∧
    (processField minusThreeField).map SchemaField.MinLength = some (some (-3)) := by
  decide

/-- C3 (amended): for every field whose schema tag value contains
`minLength=`, the minimum-length member is present in the output iff the text
after `minLength=` up to the next comma parses as an integer via
`strconv.Atoi` — an optional sign is accepted, so negative values also
produce the member (with the negative value); the parsed integer is stored
verbatim, so `minLength=3` yields the integer member 3 and `minLength=abc`
yields no member and no error. -/
theorem claim_C3_minLength_iff_atoi
    (f : GoField) (raw : String) (sf : SchemaField)
    (htag : f.tag = some raw)
    (hproc : processField f = some sf)
    (hml : goContains (goMapGet (parseFieldTags raw) "schema") "minLength=" = true) :
    (hasMember (fieldMembers sf) "minLength" = true ↔
      (goAtoi (minLengthText (goMapGet (parseFieldTags raw) "schema"))).isSome = true) ∧
    sf.MinLength = goAtoi (minLengthText (goMapGet (parseFieldTags raw) "schema")) := by
  have hmin : sf.MinLength = goAtoi (minLengthText (goMapGet (parseFieldTags raw) "schema")) := by
    simp only [processField, htag] at hproc
    by_cases hj : goMapGet (parseFieldTags raw) "json" = "-"
    · rw [if_pos hj] at hproc
      exact absurd hproc (by simp)
    · rw [if_neg hj] at hproc
      have hrec := Option.some.inj hproc
      rw [← hrec]
      simp [hml]
  refine ⟨?_, hmin⟩
  rw [hasMember_minLength, hmin]

/-- C3 witness: `schema:"minLength=3"` — the member is present and its stored
value is the integer 3, matching Atoi on the extracted text `3`. -/
theorem claim_C3_minLength_iff_atoi_witness :
    (hasMember (fieldMembers ⟨"name", "string", false, some 3, "", ""⟩) "minLength" = true ↔
      (goAtoi (minLengthText (goMapGet (parseFieldTags mlen3Raw) "schema"))).isSome = true) ∧
    SchemaField.MinLength ⟨"name", "string", false, some 3, "", ""⟩ =
      goAtoi (minLengthText (goMapGet (parseFieldTags mlen3Raw) "schema")) :=
  claim_C3_minLength_iff_atoi mlen3Field mlen3Raw ⟨"name", "string", false, some 3, "", ""⟩
    rfl (by decide) (by decide)

/-- C8: the successful write goes to `lowercase(TypeName) + ".schema.json"`
(for `User`, exactly `user.schema.json`), replaces whatever the store
previously held at that path, and carries permission bits `0644`: readable by
owner, group and others, writable by the owner only. -/
theorem claim_C8_output_file (fs : String → Option FileData) (schema : SchemaType) :
    (generateSchemaFile fs none schema).fs (goToLower schema.TypeName ++ ".schema.json") =
      some { title := schema.TypeName, properties := renderProperties schema, perm := 0o644 } ∧
    goToLower "User" ++ ".schema.json" = "user.schema.json" ∧
    (Nat.testBit 0o644 8 = true ∧ Nat.testBit 0o644 7 = true ∧
     Nat.testBit 0o644 5 = true ∧ Nat.testBit 0o644 2 = true ∧
     Nat.testBit 0o644 4 = false ∧ Nat.testBit 0o644 1 = false) := by
  refine ⟨?_, by decide, by decide⟩
  simp [generateSchemaFile, goWriteFile]

/-- C10: `generateSchemaFile` prints the confirmation line — which names the
computed output file — before attempting the write, so for every run whose
lookup succeeds the confirmation is printed even when the write fails, in
which case `main` then prints the error report and exits with status 1. -/
theorem claim_C10_confirmation_precedes_write
    (decls : List TypeDecl) (t file : String) (fs : String → Option FileData)
    (emsg : String) (schema : SchemaType)
    (hfind : goFindSchema decls t = some schema) :
    (generateSchemaFile fs (some emsg) schema).printed =
      [confirmLine (goToLower schema.TypeName ++ ".schema.json")] ∧
    (goMainRun decls t file fs (some emsg)).printed =
      [confirmLine (goToLower schema.TypeName ++ ".schema.json"),
       "Error generating schema: " ++ emsg ++ "\n"] ∧
    (goMainRun decls t file fs (some emsg)).exitCode = 1 := by
  refine ⟨rfl, ?_, ?_⟩ <;> unfold goMainRun <;> rw [hfind] <;> rfl

/-- C10 witness: a run over a one-declaration file whose write fails with
`disk full` still prints the confirmation first, then the error, and exits 1. -/
theorem claim_C10_confirmation_precedes_write_witness :
    (generateSchemaFile (fun _ => none) (some "disk full")
        (parseStruct "User" [⟨GoExpr.ident "int", some "`json:\"a\"`"⟩])).printed =
      [confirmLine (goToLower "User" ++ ".schema.json")] ∧
    (goMainRun [dupDeclA] "User" "user.go" (fun _ => none) (some "disk full")).printed =
      [confirmLine (goToLower "User" ++ ".schema.json"),
       "Error generating schema: " ++ "disk full" ++ "\n"] ∧
    (goMainRun [dupDeclA] "User" "user.go" (fun _ => none) (some "disk full")).exitCode = 1 :=
  claim_C10_confirmation_precedes_write [dupDeclA] "User" "user.go" (fun _ => none) "disk full"
    (parseStruct "User" [⟨GoExpr.ident "int", some "`json:\"a\"`"⟩]) (by decide)

end SchemaGen
